import Mathlib

/-!
Verification of the dynamix compiler + virtual machine (Rust sources under
`src/dynamix/`).  Each Rust data type and function used by the claims is
shallowly embedded as an executable Lean definition; theorems about the
claims follow the definitions.

Modelling conventions:
* Rust `u8` bytes are `Nat` values `< 256`; wrapping casts are explicit `% 256`.
* Rust `f64` (`Constant::Number`) is modelled by `ℚ`.  All claim inputs are
  small integers, where `f64` arithmetic and `Display` are exact; IEEE special
  values (NaN/∞) and decimal formatting of non-integral values are outside the
  model and outside every claim.
* Rust `char` is modelled by its Unicode scalar value (`Nat`); `char as u8`
  is truncation `% 256`.
* A Rust panic (`unwrap` on `None`, out-of-bounds `Vec` index, reading the
  instruction stream past its end inside an operand) is modelled as `none`.
* `Vec` / `Stack<T>` is a `List` whose index 0 is the bottom; `push` appends
  at the end, the top of the stack is the last element.
-/

namespace Dynamix

/-- `ObjectType` (constant.rs): the only runtime object kind is `String`. -/
inductive ObjectType where
  | string
deriving DecidableEq, Repr

/-- `Object` (constant.rs): a type tag plus an owned byte buffer. -/
structure Object where
  typ3 : ObjectType
  bytes : List Nat
deriving DecidableEq, Repr

/-- `Constant` (constant.rs): the tagged runtime value union. -/
inductive Constant where
  | number (x : ℚ)
  | bool (b : Bool)
  | char (c : Nat)
  | obj (o : Object)
  | null
deriving DecidableEq, Repr

/-- `Constant::type_to_string` (constant.rs). -/
def typeToString : Constant → String
  | .number _ => "number"
  | .bool _ => "bool"
  | .char _ => "char"
  | .obj o => match o.typ3 with | .string => "String"
  | .null => "null"

/-- `f64::to_string` as used for string concatenation, modelled exactly on
integral values (every claim input); non-integral values fall back to the
rational's own rendering, which no theorem relies on. -/
def numToString (q : ℚ) : String :=
  if q.den = 1 then toString q.num else toString q

/-- The bytes of an ASCII string (`str::bytes`). -/
def strBytes (s : String) : List Nat :=
  s.toList.map Char.toNat

/-- `Display for Constant` (constant.rs); object byte buffers are decoded as
ASCII (`String::from_utf8`, all claim inputs are ASCII). -/
def constantDisplay : Constant → String
  | .number x => numToString x
  | .bool b => toString b
  | .char c => String.mk [Char.ofNat c]
  | .obj o => String.mk (o.bytes.map Char.ofNat)
  | .null => "null"

/-- Variant discriminant of `Constant`, in declaration order (the order the
Rust `derive(PartialOrd)` compares mismatched variants by). -/
def discr : Constant → Nat
  | .number _ => 0
  | .bool _ => 1
  | .char _ => 2
  | .obj _ => 3
  | .null => 4

/-- Three-way comparison on `ℚ` (the payload comparison of `Number`). -/
def cmpQ (x y : ℚ) : Ordering :=
  if x < y then .lt else if y < x then .gt else .eq

/-- Three-way comparison on `Nat`. -/
def cmpN (a b : Nat) : Ordering :=
  if a < b then .lt else if b < a then .gt else .eq

/-- Three-way comparison on `Bool` (`false < true`, as in Rust). -/
def cmpB : Bool → Bool → Ordering
  | false, true => .lt
  | true, false => .gt
  | _, _ => .eq

/-- Lexicographic comparison of byte buffers (`Vec<u8>`'s ordering). -/
def cmpBytes : List Nat → List Nat → Ordering
  | [], [] => .eq
  | [], _ :: _ => .lt
  | _ :: _, [] => .gt
  | a :: as_, b :: bs =>
    if a < b then .lt else if b < a then .gt else cmpBytes as_ bs

/-- `PartialOrd::partial_cmp` as derived on `Constant` (constant.rs):
matching variants compare payloads; mismatched variants compare by
declaration-order discriminant (`Number < Bool < Char < Obj < Null`).
The result is always `some` in the model because `ℚ` is totally ordered
(the `f64` NaN case is outside the model). -/
def ordCmp : Constant → Constant → Option Ordering
  | .number x, .number y => some (cmpQ x y)
  | .bool a, .bool b => some (cmpB a b)
  | .char a, .char b => some (cmpN a b)
  | .obj a, .obj b => some (cmpBytes a.bytes b.bytes)
  | .null, .null => some .eq
  | a, b => some (cmpN (discr a) (discr b))

/-- Rust `lhs < rhs` via the derived `PartialOrd` (`partial_cmp == Some(Less)`). -/
def constLt (a b : Constant) : Bool :=
  ordCmp a b = some .lt

/-- Rust `lhs > rhs` via the derived `PartialOrd` (`partial_cmp == Some(Greater)`). -/
def constGt (a b : Constant) : Bool :=
  ordCmp a b = some .gt

/-- Rust `lhs == rhs` via the derived `PartialEq` (structural equality). -/
def constEqb (a b : Constant) : Bool :=
  decide (a = b)

/-- `OpCode` (byte_block.rs), in declaration order; `tru`/`fls`/`notOp`/`ret`
stand for the source's `True`/`False`/`Not`/`Return`. -/
inductive OpCode where
  | print | pop | defineGlobal | getGlobal | setGlobal
  | getLocal | setLocal | jz | jmp | loop
  | constant | tru | fls | char | null
  | equal | greater | less | negate | notOp
  | add | sub | mul | div | ret
deriving DecidableEq, Repr

/-- The discriminant byte of an opcode (`OpCode as u8`). -/
def OpCode.toByte : OpCode → Nat
  | .print => 0 | .pop => 1 | .defineGlobal => 2 | .getGlobal => 3 | .setGlobal => 4
  | .getLocal => 5 | .setLocal => 6 | .jz => 7 | .jmp => 8 | .loop => 9
  | .constant => 10 | .tru => 11 | .fls => 12 | .char => 13 | .null => 14
  | .equal => 15 | .greater => 16 | .less => 17 | .negate => 18 | .notOp => 19
  | .add => 20 | .sub => 21 | .mul => 22 | .div => 23 | .ret => 24

/-- `OpCode::from` (byte_block.rs): decode a byte, `none` for
`Err(OpError::UnknownOperation)`. -/
def OpCode.ofByte : Nat → Option OpCode
  | 0 => some .print | 1 => some .pop | 2 => some .defineGlobal
  | 3 => some .getGlobal | 4 => some .setGlobal | 5 => some .getLocal
  | 6 => some .setLocal | 7 => some .jz | 8 => some .jmp | 9 => some .loop
  | 10 => some .constant | 11 => some .tru | 12 => some .fls
  | 13 => some .char | 14 => some .null | 15 => some .equal
  | 16 => some .greater | 17 => some .less | 18 => some .negate
  | 19 => some .notOp | 20 => some .add | 21 => some .sub
  | 22 => some .mul | 23 => some .div | 24 => some .ret
  | _ => none

/-- The four arithmetic opcodes handled by the `binary_op!` macro. -/
inductive BinTag where
  | add | sub | mul | div
deriving DecidableEq, Repr

/-- The operator character passed to `type_mismatch` for each arithmetic op. -/
def opChar : BinTag → Char
  | .add => '+' | .sub => '-' | .mul => '*' | .div => '/'

/-- `x $op y` on `Number` payloads (`f64` modelled by `ℚ`; division by zero
yields `0` in the model where `f64` yields ±∞/NaN — outside every claim). -/
def numOp : BinTag → ℚ → ℚ → ℚ
  | .add, x, y => x + y
  | .sub, x, y => x - y
  | .mul, x, y => x * y
  | .div, x, y => x / y

/-- `x as u8 $op y as u8` on bytes `< 256`.  Add/Sub/Mul use wrapping
semantics (release-mode Rust; a debug build would panic on overflow).  `u8`
division by zero panics in **every** build profile, so it yields `none`
(a panic), never a number. -/
def byteOp : BinTag → Nat → Nat → Option Nat
  | .add, a, b => some ((a + b) % 256)
  | .sub, a, b => some ((a + 256 - b) % 256)
  | .mul, a, b => some ((a * b) % 256)
  | .div, a, b => if b = 0 then none else some (a / b)

/-- `f64 as u8`: saturating cast (clamp to `0..=255`, truncating toward zero). -/
def f64ToU8 (q : ℚ) : Nat :=
  if q ≤ 0 then 0 else if 255 ≤ q then 255 else q.floor.toNat

/-- The message built by `type_mismatch` (virtual_machine.rs); the source
additionally prefixes `[line:N] Runtime Error: ` via `runtime_error`, which
the model elides together with the line table. -/
def typeMismatchMsg (c : Char) (l r : String) : String :=
  s!"Type mismatch, operator '{c}' not supported for types '{l}' and '{r}'"

/-- Outcome of the `binary_op!` macro body on the two popped operands: a
value to push, a type-mismatch message (the caller records the error and
breaks with `RuntimeError`), or a Rust panic (the `u8` division by zero
inside the `Char` branches, which aborts the interpreter). -/
inductive BinResult where
  | ok (v : Constant)
  | mismatch (msg : String)
  | panic
deriving DecidableEq, Repr

/-- The body of the `binary_op!` macro (virtual_machine.rs) applied to the
popped left/right operands.  Note the `Obj` branch ignores the operator:
every arithmetic opcode concatenates when the left operand is a string. -/
def binaryOp (t : BinTag) (lhs rhs : Constant) : BinResult :=
  match lhs with
  | .number x =>
    match rhs with
    | .number y => .ok (.number (numOp t x y))
    | _ => .mismatch (typeMismatchMsg (opChar t) (typeToString lhs) (typeToString rhs))
  | .char x =>
    match rhs with
    | .char y =>
      match byteOp t (x % 256) (y % 256) with
      | some b => .ok (.char b)
      | none => .panic
    | .number y =>
      match byteOp t (x % 256) (f64ToU8 y) with
      | some b => .ok (.char b)
      | none => .panic
    | _ => .mismatch (typeMismatchMsg (opChar t) (typeToString lhs) (typeToString rhs))
  | .obj x =>
    match x.typ3 with
    | .string =>
      match rhs with
      | .obj y =>
        if typeToString lhs ≠ typeToString rhs then
          .mismatch (typeMismatchMsg (opChar t) (typeToString lhs) (typeToString rhs))
        else
          .ok (.obj ⟨.string, x.bytes ++ y.bytes⟩)
      | .number n => .ok (.obj ⟨.string, x.bytes ++ strBytes (numToString n)⟩)
      | .char c => .ok (.obj ⟨.string, x.bytes ++ [c % 256]⟩)
      | _ => .mismatch (typeMismatchMsg (opChar t) (typeToString lhs) (typeToString rhs))
  | _ => .mismatch (typeMismatchMsg (opChar t) (typeToString lhs) (typeToString rhs))

/-- `VirtualMachine::is_falsey` (virtual_machine.rs). -/
def isFalsey : Constant → Constant
  | .number x => .bool (decide (x = 0))
  | .bool x => .bool (!x)
  | .char _ => .bool false
  | .obj o => .bool o.bytes.isEmpty
  | .null => .bool true

/-- `InterpretResult` (virtual_machine.rs). -/
inductive InterpretResult where
  | ok | compileError | runtimeError
deriving DecidableEq, Repr

/-- `HashMap::insert` on the VM's globals, modelled as an association list
with replace-on-existing-key (last write wins). -/
def gInsert : List (String × Constant) → String → Constant → List (String × Constant)
  | [], k, v => [(k, v)]
  | (k', v') :: rest, k, v =>
    if k' = k then (k, v) :: rest else (k', v') :: gInsert rest k v

/-- `HashMap::get_key_value` / `contains_key` on the globals. -/
def gLookup : List (String × Constant) → String → Option Constant
  | [], _ => none
  | (k', v') :: rest, k => if k' = k then some v' else gLookup rest k

/-- The `VirtualMachine` state (virtual_machine.rs): the byte block's code and
constants, the instruction pointer as an offset from `origin`, the operand
stack (index 0 = bottom, last element = top), the globals table, the captured
`last_runtime_error` text, and the lines printed so far by `OpCode::Print`
(`output`, recording each `println!("{constant}")`).  The source's parallel
`lines` table only feeds the `[line:N]` prefix of error messages and is
elided. -/
structure VMState where
  bytes : List Nat
  constants : List Constant
  ip : Nat
  stack : List Constant
  globals : List (String × Constant)
  lastError : String
  output : List String
deriving DecidableEq, Repr

/-- `VirtualMachine::runtime_error`: record the message and clear the stack
(the model drops the `[line:N] Runtime Error: ` prefix, see `typeMismatchMsg`). -/
def vmError (st : VMState) (msg : String) : VMState :=
  { st with lastError := msg, stack := [] }

/-- Outcome of executing one decoded instruction inside `run`'s loop body:
keep looping, `break` out with the final state and result, or hit a Rust
panic (`unwrap` on empty stack / out-of-bounds index / operand read past the
end of the byte buffer). -/
inductive StepOut where
  | next (st : VMState) (res : InterpretResult)
  | halt (st : VMState) (res : InterpretResult)
  | panic

/-- One arm of `VirtualMachine::run`'s dispatch `match` (virtual_machine.rs).
`st.ip` already points past the opcode byte `b`; `res` is the loop's mutable
`result` variable.  Comments name the source arm each case embeds. -/
def execInstr (st : VMState) (res : InterpretResult) (b : Nat) : StepOut :=
  match OpCode.ofByte b with
  | none => .next st .runtimeError
  | some op =>
    match op with
    | .print =>
      match st.stack.getLast? with
      | some v =>
        .next { st with stack := st.stack.dropLast,
                        output := st.output ++ [constantDisplay v] } res
      | none => .next st res
    | .pop => .next { st with stack := st.stack.dropLast } res
    | .defineGlobal =>
      match st.bytes.get? st.ip with
      | none => .next st res
      | some idx =>
        match st.constants.get? idx with
        | none => .panic
        | some name =>
          match st.stack.getLast? with
          | none => .panic
          | some value =>
            .next { st with ip := st.ip + 1,
                            globals := gInsert st.globals (constantDisplay name) value,
                            stack := st.stack.dropLast } res
    | .getGlobal =>
      match st.bytes.get? st.ip with
      | none => .next st res
      | some idx =>
        match st.constants.get? idx with
        | none => .panic
        | some name =>
          let st := { st with ip := st.ip + 1 }
          match gLookup st.globals (constantDisplay name) with
          | some v => .next { st with stack := st.stack ++ [v] } res
          | none =>
            .halt (vmError st s!"Undefined variable '{constantDisplay name}'")
              .runtimeError
    | .setGlobal =>
      match st.bytes.get? st.ip with
      | none => .next st res
      | some idx =>
        match st.constants.get? idx with
        | none => .panic
        | some name =>
          let st := { st with ip := st.ip + 1 }
          match gLookup st.globals (constantDisplay name) with
          | some _ =>
            match st.stack.getLast? with
            | none => .panic
            | some top =>
              .next { st with globals := gInsert st.globals (constantDisplay name) top } res
          | none => .next st res
    | .getLocal =>
      match st.bytes.get? st.ip with
      | none => .next st res
      | some slot =>
        let st := { st with ip := st.ip + 1 }
        match st.stack.get? slot with
        | none => .panic
        | some v => .next { st with stack := st.stack ++ [v] } res
    | .setLocal =>
      match st.bytes.get? st.ip with
      | none => .next st res
      | some slot =>
        let st := { st with ip := st.ip + 1 }
        match st.stack.getLast? with
        | none => .panic
        | some top =>
          if slot < st.stack.length then
            .next { st with stack := st.stack.set slot top } res
          else
            .panic
    | .jz =>
      match st.bytes.get? st.ip, st.bytes.get? (st.ip + 1) with
      | some hi, some lo =>
        let st := { st with ip := st.ip + 2 }
        match st.stack.getLast? with
        | none => .panic
        | some expr =>
          match isFalsey expr with
          | .bool x =>
            if x then .next { st with ip := st.ip + (hi * 256 + lo) } res
            else .next st res
          | _ => .next st res
      | _, _ => .panic
    | .jmp =>
      match st.bytes.get? st.ip, st.bytes.get? (st.ip + 1) with
      | some hi, some lo =>
        .next { st with ip := st.ip + 2 + (hi * 256 + lo) } res
      | _, _ => .panic
    | .loop =>
      -- `run`'s `match opcode` in the source has no `OpCode::Loop` arm;
      -- the model stops; no theorem exercises this case.
      .halt st res
    | .constant =>
      match st.bytes.get? st.ip with
      | none => .next st res
      | some idx =>
        match st.constants.get? idx with
        | none => .panic
        | some c => .next { st with ip := st.ip + 1, stack := st.stack ++ [c] } res
    | .tru => .next { st with stack := st.stack ++ [.bool true] } res
    | .fls => .next { st with stack := st.stack ++ [.bool false] } res
    | .char =>
      match st.bytes.get? st.ip with
      | none => .next st res
      | some idx =>
        match st.constants.get? idx with
        | none => .panic
        | some c => .next { st with ip := st.ip + 1, stack := st.stack ++ [c] } res
    | .null => .next { st with stack := st.stack ++ [.null] } res
    | .equal =>
      match st.stack.getLast? with
      | none => .next st res
      | some rhs =>
        let st := { st with stack := st.stack.dropLast }
        match st.stack.getLast? with
        | none => .next st res
        | some lhs =>
          .next { st with stack := st.stack.dropLast ++ [.bool (constEqb lhs rhs)] } res
    | .greater =>
      match st.stack.getLast? with
      | none => .next st res
      | some rhs =>
        let st := { st with stack := st.stack.dropLast }
        match st.stack.getLast? with
        | none => .next st res
        | some lhs =>
          .next { st with stack := st.stack.dropLast ++ [.bool (constGt lhs rhs)] } res
    | .less =>
      match st.stack.getLast? with
      | none => .next st res
      | some rhs =>
        let st := { st with stack := st.stack.dropLast }
        match st.stack.getLast? with
        | none => .next st res
        | some lhs =>
          .next { st with stack := st.stack.dropLast ++ [.bool (constLt lhs rhs)] } res
    | .negate =>
      match st.stack.getLast? with
      | none => .next st res
      | some c =>
        let st := { st with stack := st.stack.dropLast }
        match c with
        | .number x => .next { st with stack := st.stack ++ [.number (-x)] } res
        | _ => .halt (vmError st "Operand must be a number") .runtimeError
    | .notOp =>
      match st.stack.getLast? with
      | none => .next st res
      | some c =>
        .next { st with stack := st.stack.dropLast ++ [isFalsey c] } res
    | .add => execBinary st res .add
    | .sub => execBinary st res .sub
    | .mul => execBinary st res .mul
    | .div => execBinary st res .div
    | .ret => .halt st res
where
  /-- The `binary_op!` macro's pop-right-then-left protocol around `binaryOp`:
  a failed first pop skips the whole macro; a failed second pop skips the
  dispatch with the right operand already consumed; a type mismatch records
  the error, sets `result = RuntimeError` and breaks; a `u8` division by zero
  is a Rust panic. -/
  execBinary (st : VMState) (res : InterpretResult) (t : BinTag) : StepOut :=
    match st.stack.getLast? with
    | none => .next st res
    | some rhs =>
      let st := { st with stack := st.stack.dropLast }
      match st.stack.getLast? with
      | none => .next st res
      | some lhs =>
        let st := { st with stack := st.stack.dropLast }
        match binaryOp t lhs rhs with
        | .ok v => .next { st with stack := st.stack ++ [v] } res
        | .mismatch msg => .halt (vmError st msg) .runtimeError
        | .panic => .panic

/-- `VirtualMachine::run`'s dispatch loop, with explicit fuel (the loop has no
step bound in the source; every theorem supplies enough fuel).  Reading the
opcode byte past the end of the buffer stops with the current result —
spec §4.4's "instruction stream is exhausted (success)"; in the source this
read is an unchecked raw-pointer dereference that compiled blocks never reach
because compilation always appends a trailing `Return`. -/
def runLoop : Nat → VMState → InterpretResult → Option (VMState × InterpretResult)
  | 0, _, _ => none
  | fuel + 1, st, res =>
    match st.bytes.get? st.ip with
    | none => some (st, res)
    | some b =>
      match execInstr { st with ip := st.ip + 1 } res b with
      | .next st' res' => runLoop fuel st' res'
      | .halt st' res' => some (st', res')
      | .panic => none

/-- `VirtualMachine::interpret`: run a block from offset 0 on a fresh VM. -/
def interpret (fuel : Nat) (bytes : List Nat) (constants : List Constant) :
    Option (VMState × InterpretResult) :=
  runLoop fuel ⟨bytes, constants, 0, [], [], "", []⟩ .ok

/-! ## Compiler: local-variable resolution (compiler.rs) -/

/-- `Local` (compiler.rs): a declared local's name (the token's lexeme) and
scope depth, `-1` while its initializer is still being compiled. -/
structure Local where
  name : String
  depth : Int
deriving DecidableEq, Repr

/-- `Compiler::identifiers_equal`: length check then string equality. -/
def identifiersEqual (a b : String) : Bool :=
  if a.length ≠ b.length then false else a = b

/-- Loop body of `Compiler::resolve_local`.  `impl Iterator for Stack` pops
from the **front** of the backing `Vec` (`self.data.remove(0)`), so the
clone-iteration in `resolve_local` visits locals bottom-up: index 0 — the
oldest, outermost declaration — first.  Returns the resolved slot (`-1` if no
local matches) paired with whether the `depth == -1` initializer error was
raised. -/
def resolveLocalAux : List Local → String → Nat → Int × Bool
  | [], _, _ => (-1, false)
  | l :: rest, name, i =>
    if identifiersEqual name l.name then ((i : Int), l.depth = -1)
    else resolveLocalAux rest name (i + 1)

/-- `Compiler::resolve_local` (compiler.rs). -/
def resolveLocal (locals : List Local) (name : String) : Int × Bool :=
  resolveLocalAux locals name 0

/-- The redefinition scan inside `Compiler::add_local`: iterate the cloned
stack (again bottom-up, see `resolveLocalAux`), stop at the first local that
is initialized and shallower than the current scope, error on a name match. -/
def redefinedInScope : List Local → String → Int → Bool
  | [], _, _ => false
  | l :: rest, name, sd =>
    if l.depth ≠ -1 ∧ l.depth < sd then false
    else identifiersEqual name l.name || redefinedInScope rest name sd

/-- The compiler state the local-variable claims touch: the local stack, the
scope depth and the parser's `had_error` flag (the emitted bytes and the
constant pool do not influence these claims). -/
structure CompilerState where
  locals : List Local
  scopeDepth : Nat
  hadError : Bool
deriving DecidableEq, Repr

/-- `Compiler::add_local` (compiler.rs): locals-limit check, redefinition
scan, then push the local with the `-1` depth sentinel. -/
def addLocal (st : CompilerState) (name : String) : CompilerState :=
  if st.locals.length = 255 then { st with hadError := true }
  else
    let st :=
      if redefinedInScope st.locals name (st.scopeDepth : Int) then
        { st with hadError := true }
      else st
    { st with locals := st.locals ++ [⟨name, -1⟩] }

/-- `Compiler::declare_variable`: a no-op at global scope, `add_local` inside
a block. -/
def declareVariable (st : CompilerState) (name : String) : CompilerState :=
  if st.scopeDepth = 0 then st else addLocal st name

/-- `Compiler::mark_initialized`: set the newest local's depth to the current
scope depth. -/
def markInitialized (st : CompilerState) : CompilerState :=
  { st with
    locals := st.locals.set (st.locals.length - 1)
      ⟨(st.locals.getLast?.map Local.name).getD "", (st.scopeDepth : Int)⟩ }

/-- `Compiler::begin_scope`. -/
def beginScope (st : CompilerState) : CompilerState :=
  { st with scopeDepth := st.scopeDepth + 1 }

/-- The identifier-expression path of `Compiler::named_variable`, restricted
to its effect on `had_error`: `resolve_local` raises the
"not allowed in initializer" diagnostic when the matched local still has the
`-1` sentinel. -/
def readVariable (st : CompilerState) (name : String) : CompilerState :=
  if (resolveLocal st.locals name).2 then { st with hadError := true } else st

/-- The compiler-call trace of `{ let x = x; }` — the claim's self-reference
program.  Each step is the source call the parse of the program makes, in
order: `begin_scope` for `{`; then `let_declaration`: `parse_variable`
consumes `x` and calls `declare_variable`; the initializer expression `x`
runs `named_variable`/`resolve_local`; `define_variable` calls
`mark_initialized` (scope depth > 0). -/
def traceLetSelfRef : CompilerState :=
  markInitialized (readVariable (declareVariable (beginScope ⟨[], 0, false⟩) "x") "x")

/-- The compiler-call trace of `let x = 1; { let x = x; }`.  At scope depth 0
the first `let` declares a **global**: `declare_variable` returns without
adding a local and `define_variable` emits `DefineGlobal` (no local-stack
effect).  Then `begin_scope` for `{`, and the inner `let x = x;` replays
`declare_variable` / `resolve_local` / `mark_initialized` as in
`traceLetSelfRef`. -/
def traceLetShadowGlobal : CompilerState :=
  let st : CompilerState := ⟨[], 0, false⟩
  let st := declareVariable st "x"
  let st := beginScope st
  let st := declareVariable st "x"
  let st := readVariable st "x"
  markInitialized st

/-! ## Compiler: jump and loop emission (compiler.rs) -/

/-- `Compiler::emit_byte`, restricted to the byte stream (the parallel line
table is elided throughout, as in the VM model). -/
def emitByte (bytes : List Nat) (b : Nat) : List Nat :=
  bytes ++ [b]

/-- `Compiler::emit_jump`: emit the opcode and a two-byte `0xff 0xff`
placeholder, return the patch handle `bytes.len() - 2`. -/
def emitJump (bytes : List Nat) (instruction : Nat) : List Nat × Nat :=
  let bytes := emitByte (emitByte (emitByte bytes instruction) 255) 255
  (bytes, bytes.length - 2)

/-- `Compiler::emit_loop` (compiler.rs): emit the `Loop` opcode, compute the
backward distance from the byte just past the two-byte operand to
`loop_start`, error (without suppressing emission) when it exceeds 16 bits,
and emit the distance big-endian.  Returns the new byte stream and whether
the "loop body too large" error fired. -/
def emitLoop (bytes : List Nat) (loopStart : Nat) : List Nat × Bool :=
  let bytes := emitByte bytes (OpCode.loop.toByte)
  let offset := (bytes.length - loopStart) + 2
  let err := decide (offset > 65535)
  (emitByte (emitByte bytes ((offset >>> 8) % 256)) (offset % 256), err)

/-- `Compiler::patch_jump`: back-patch a two-byte big-endian jump distance at
the patch handle; error when it exceeds 16 bits. -/
def patchJump (bytes : List Nat) (offset : Nat) : List Nat × Bool :=
  let jump := bytes.length - offset - 2
  let err := decide (jump > 65535)
  ((bytes.set offset ((jump >>> 8) % 256)).set (offset + 1) (jump % 256), err)

/-- `Compiler::while_statement` (compiler.rs), parametrized by the bytes
already in the block (`pre`), the bytes the condition expression compiles to
(`cond`) and the bytes the body block compiles to (`body`).  The source takes
`let loop_start: u8 = self.block.bytes.len() as u8;` — the `as u8` truncation
is the `% 256` below.  Emission order: condition, `Jz` exit jump, `Pop`,
body, `emit_loop`, patch the exit jump, trailing `Pop`. -/
def whileStatement (pre cond body : List Nat) : List Nat × Bool :=
  let loopStart := pre.length % 256
  let bytes := pre ++ cond
  let (bytes, exitJump) := emitJump bytes (OpCode.jz.toByte)
  let bytes := emitByte bytes (OpCode.pop.toByte)
  let bytes := bytes ++ body
  let (bytes, err1) := emitLoop bytes loopStart
  let (bytes, err2) := patchJump bytes exitJump
  (emitByte bytes (OpCode.pop.toByte), err1 || err2)

/-! ## Constant pool (byte_block.rs / compiler.rs) -/

/-- `ByteBlock::push_constant`: push unconditionally, return
`constants.len() as u8 - 1` — a wrapping single-byte index (in a debug build
the `- 1` underflow at `len % 256 == 0` would panic; release wraps). -/
def pushConstant (pool : List Constant) (v : Constant) : List Constant × Nat :=
  let pool := pool ++ [v]
  (pool, (pool.length % 256 + 255) % 256)

/-- The compiler state `make_constant` touches: the block's pool and the
error flag. -/
structure PoolState where
  pool : List Constant
  hadError : Bool
deriving DecidableEq, Repr

/-- `Compiler::make_constant` (compiler.rs): push, then raise "Too many
constants in one block" exactly when the wrapped index equals `u8::MAX`,
returning 0 in that case. -/
def makeConstant (st : PoolState) (v : Constant) : PoolState × Nat :=
  let pr := pushConstant st.pool v
  if pr.2 = 255 then ({ pool := pr.1, hadError := true }, 0)
  else ({ pool := pr.1, hadError := st.hadError }, pr.2)

/-- `n` consecutive `make_constant` calls from an empty block (the pool state
after compiling a unit with `n` literal constants). -/
def makeConstants : Nat → PoolState
  | 0 => ⟨[], false⟩
  | n + 1 => (makeConstant (makeConstants n) .null).1

/-! ## Disassembler (disassembler.rs) -/

/-- `Disassembler::disassemble_instruction`, restricted to its cursor
advance: `constant_instruction`/`byte_instruction` advance 2 (panicking —
`none` — if the operand byte is out of bounds), `jump_instruction` advances 3,
`simple_instruction` 1, unknown opcodes 1.  The source routes
`DefineGlobal`, `GetGlobal`, `SetGlobal` and `Char` to `simple_instruction`. -/
def disasmNext (bytes : List Nat) (offset : Nat) : Option Nat :=
  match bytes.get? offset with
  | none => some offset
  | some b =>
    match OpCode.ofByte b with
    | none => some (offset + 1)
    | some op =>
      match op with
      | .constant | .getLocal | .setLocal =>
        match bytes.get? (offset + 1) with
        | none => none
        | some _ => some (offset + 2)
      | .jz | .jmp | .loop =>
        match bytes.get? (offset + 1), bytes.get? (offset + 2) with
        | some _, some _ => some (offset + 3)
        | _, _ => none
      | _ => some (offset + 1)

/-- The instruction-boundary offsets `Disassembler::disassemble` visits while
`offset < bytes.len()` (with fuel; the walk always advances by ≥ 1). -/
def disasmWalk : Nat → List Nat → Nat → List Nat
  | 0, _, _ => []
  | fuel + 1, bytes, offset =>
    if offset < bytes.length then
      match disasmNext bytes offset with
      | none => [offset]
      | some offset' => offset :: disasmWalk fuel bytes offset'
    else []

/-- The true encoded width of each instruction, read off the operand bytes
`VirtualMachine::run` consumes: `read_constant` for `Constant`, `Char`,
`DefineGlobal`, `GetGlobal`, `SetGlobal`; `read_byte` for `GetLocal`,
`SetLocal`; `read_short` for `Jz`, `Jmp` (and the `Loop` encoding emitted by
`Compiler::emit_loop`); everything else is the opcode byte alone. -/
def vmWidth : OpCode → Nat
  | .constant | .char | .defineGlobal | .getGlobal | .setGlobal => 2
  | .getLocal | .setLocal => 2
  | .jz | .jmp | .loop => 3
  | _ => 1

/-- The instruction-boundary offsets of a block under the true widths
(`vmWidth`); unknown opcodes advance 1. -/
def vmWalk : Nat → List Nat → Nat → List Nat
  | 0, _, _ => []
  | fuel + 1, bytes, offset =>
    if offset < bytes.length then
      offset :: vmWalk fuel bytes
        (offset + (match bytes.get? offset with
          | none => 1
          | some b => match OpCode.ofByte b with
            | none => 1
            | some op => vmWidth op))
    else []

/-- The opcode byte dispatched to `binary_op!` for each arithmetic operator
(virtual_machine.rs, the `Add`/`Sub`/`Mul`/`Div` arms). -/
def binByte : BinTag → Nat
  | .add => OpCode.add.toByte
  | .sub => OpCode.sub.toByte
  | .mul => OpCode.mul.toByte
  | .div => OpCode.div.toByte

/-- The operand pairings the claim calls "any other pairing" — everything
except Number⊕Number, Char⊕Char, Char⊕Number, String⊕String, String⊕Number
and String⊕Char. -/
def mismatched : Constant → Constant → Bool
  | .number _, .number _ => false
  | .char _, .char _ => false
  | .char _, .number _ => false
  | .obj _, .obj _ => false
  | .obj _, .number _ => false
  | .obj _, .char _ => false
  | _, _ => true

/-! ## Shared lemmas -/

/-- One unfolding of the dispatch loop when the opcode byte is readable. -/
theorem runLoop_step (fuel : Nat) (st : VMState) (res : InterpretResult) (b : Nat)
    (h : st.bytes.get? st.ip = some b) :
    runLoop (fuel + 1) st res =
      match execInstr { st with ip := st.ip + 1 } res b with
      | .next st' res' => runLoop fuel st' res'
      | .halt st' res' => some (st', res')
      | .panic => none := by
  simp only [runLoop, h]

/-- The top of a stack holding `r` over `l` over `s`. -/
theorem pop2_getLast (s : List Constant) (l r : Constant) :
    (s ++ [l, r]).getLast? = some r := by
  rw [show s ++ [l, r] = (s ++ [l]) ++ [r] by simp]
  exact List.getLast?_concat _

/-- Popping the top of a stack holding `r` over `l` over `s`. -/
theorem pop2_dropLast (s : List Constant) (l r : Constant) :
    (s ++ [l, r]).dropLast = s ++ [l] := by
  rw [show s ++ [l, r] = (s ++ [l]) ++ [r] by simp]
  exact List.dropLast_concat

/-- Case analysis for the three-way `Nat` comparison. -/
theorem cmpN_cases (a b : Nat) :
    (cmpN a b = .lt ∧ a < b) ∨ (cmpN a b = .gt ∧ b < a) ∨ (cmpN a b = .eq ∧ a = b) := by
  unfold cmpN
  split_ifs with h1 h2
  · exact Or.inl ⟨rfl, h1⟩
  · exact Or.inr (Or.inl ⟨rfl, h2⟩)
  · exact Or.inr (Or.inr ⟨rfl, by omega⟩)

/-! ## Claims -/

/-- C1: the claim says a `Return` opcode pops the top of the operand stack and
prints it before halting with `Ok`.  Running the two-instruction block
`[True, Return]` refutes this: the loop halts with `Ok`, but the pushed value
is still on the stack and nothing was printed (`output = []`) — the source's
`OpCode::Return => break` arm neither pops nor prints. -/
theorem C1_return_counterexample :
    interpret 4 [11, 24] [] =
      some (⟨[11, 24], [], 2, [.bool true], [], "", []⟩, .ok) := by
  rfl

/-- C1 (amended): executing a `Return` opcode halts the dispatch loop
immediately with the result accumulated so far (`Ok` when no fault occurred),
leaving the operand stack and the produced output untouched; the value is not
popped and nothing is printed. -/
theorem C1_return_halts (fuel : Nat) (st : VMState) (res : InterpretResult)
    (h : st.bytes.get? st.ip = some OpCode.ret.toByte) :
    runLoop (fuel + 1) st res = some ({ st with ip := st.ip + 1 }, res) := by
  rw [runLoop_step fuel st res _ h]
  rfl

/-- C1 witness: `C1_return_halts` applied to a concrete one-byte block. -/
theorem C1_return_halts_witness :
    runLoop 1 ⟨[24], [], 0, [.null], [], "", []⟩ .ok =
      some (⟨[24], [], 1, [.null], [], "", []⟩, .ok) :=
  C1_return_halts 0 ⟨[24], [], 0, [.null], [], "", []⟩ .ok rfl

/-- C2: the claim says resolution picks the innermost (most recently
declared) matching local.  With two live locals named `x` (depths 1 and 2,
slots 0 and 1) the innermost is slot 1, but `resolve_local` returns slot 0 —
the `Stack` iterator removes from the front of the backing `Vec`, so the scan
runs outermost-first. -/
theorem C2_resolve_counterexample :
    resolveLocal [⟨"x", 1⟩, ⟨"x", 2⟩] "x" = (0, false) ∧ (0 : Int) ≠ 1 := by
  decide

/-- C2 (amended): among several locals with the same name, `resolve_local`
returns the **outermost** (lowest-slot, first-declared) match — post-fix
matches are never reached — raising the initializer error exactly when that
match still has the `-1` depth sentinel. -/
theorem C2_resolve_outermost (pre : List Local) (l : Local) (post : List Local)
    (name : String) (hpre : ∀ p ∈ pre, identifiersEqual name p.name = false)
    (hl : identifiersEqual name l.name = true) :
    resolveLocal (pre ++ l :: post) name = ((pre.length : Int), decide (l.depth = -1)) := by
  have aux : ∀ (pre' : List Local) (i : Nat),
      (∀ p ∈ pre', identifiersEqual name p.name = false) →
      resolveLocalAux (pre' ++ l :: post) name i = ((i + pre'.length : Int), decide (l.depth = -1)) := by
    intro pre'
    induction pre' with
    | nil => intro i _; simp [resolveLocalAux, hl]
    | cons p rest ih =>
      intro i hp
      have hphead : identifiersEqual name p.name = false := hp p (by simp)
      have hrec := ih (i + 1) (fun q hq => hp q (by simp [hq]))
      rw [List.cons_append]
      simp only [resolveLocalAux]
      rw [if_neg (by simp [hphead]), hrec, List.length_cons]
      congr 1
      push_cast
      ring
  simpa using aux pre 0 hpre

/-- C2 witness: `C2_resolve_outermost` on a three-local stack where the
middle local is the outermost `x`. -/
theorem C2_resolve_outermost_witness :
    resolveLocal [⟨"y", 1⟩, ⟨"x", 1⟩, ⟨"x", 2⟩] "x" = (1, false) := by
  have h := C2_resolve_outermost [⟨"y", 1⟩] ⟨"x", 1⟩ [⟨"x", 2⟩] "x"
    (by decide) (by decide)
  simpa using h

/-- C3: the claim says `let x = 1; { let x = x; }` compiles successfully with
the outer binding visible in the shadowing initializer.  Replaying the
compiler calls that parsing this program makes (`traceLetShadowGlobal`) sets
`had_error`: `resolve_local` scans the local stack, finds the freshly added
inner `x` whose depth sentinel is still `-1`, and raises the
"not allowed in initializer" diagnostic, so `compile()` returns `false`. -/
theorem C3_shadow_counterexample : traceLetShadowGlobal.hadError = true := by
  decide

/-- C3 (amended): both `{ let x = x; }` and `let x = 1; { let x = x; }` are
compile errors: in each, the initializer's identifier resolves to the
just-declared local with depth sentinel `-1` (the outer global `x` of the
second program is not consulted), raising the self-reference diagnostic. -/
theorem C3_self_reference_errors :
    traceLetSelfRef.hadError = true ∧ traceLetShadowGlobal.hadError = true := by
  decide

/-- C4: the claim says an unknown opcode byte aborts the loop immediately,
with no later instruction executed.  Running `[0xff-ish 77, True, Return]`
refutes this: `interpret` does return `RuntimeError`, but the `True` after
the faulting byte was executed (the stack holds `Bool(true)`) — the
`Err(..) => result = InterpretResult::RuntimeError` arm has no `break`. -/
theorem C4_unknown_opcode_counterexample :
    interpret 5 [77, 11, 24] [] =
      some (⟨[77, 11, 24], [], 3, [.bool true], [], "", []⟩, .runtimeError) := by
  rfl

/-- C4 (amended): an unknown opcode byte sets the pending result to
`RuntimeError` (which `interpret` eventually returns, since nothing ever
resets it to `Ok`) but the dispatch loop continues with the next byte instead
of aborting. -/
theorem C4_unknown_opcode_continues (fuel : Nat) (st : VMState)
    (res : InterpretResult) (b : Nat) (h : st.bytes.get? st.ip = some b)
    (hb : OpCode.ofByte b = none) :
    runLoop (fuel + 1) st res = runLoop fuel { st with ip := st.ip + 1 } .runtimeError := by
  rw [runLoop_step fuel st res b h]
  simp [execInstr, hb]

/-- C4 witness: `C4_unknown_opcode_continues` on byte 77. -/
theorem C4_unknown_opcode_continues_witness :
    runLoop 1 ⟨[77], [], 0, [], [], "", []⟩ .ok =
      runLoop 0 ⟨[77], [], 1, [], [], "", []⟩ .runtimeError := by
  have h := C4_unknown_opcode_continues 0 ⟨[77], [], 0, [], [], "", []⟩ .ok 77 rfl rfl
  simpa using h

/-- Closed form of the bytes `while_statement` emits: condition, the `Jz`
placeholder later patched in place (the two `set`s), the body, then the
`Loop` instruction whose operand was computed from the `u8`-truncated
`loop_start`. -/
theorem whileStatement_closed (pre cond body : List Nat) :
    (whileStatement pre cond body).1 =
      ((((pre ++ cond ++ [7, 255, 255, 1] ++ body ++
          [9, (((pre.length + cond.length + body.length + 5 - pre.length % 256) + 2) >>> 8) % 256,
           ((pre.length + cond.length + body.length + 5 - pre.length % 256) + 2) % 256]).set
          (pre.length + cond.length + 1) (((body.length + 4) >>> 8) % 256)).set
          (pre.length + cond.length + 2) ((body.length + 4) % 256))) ++ [1] := by
  simp only [whileStatement, emitJump, emitByte, emitLoop, patchJump, OpCode.toByte]
  simp [List.length_append, List.append_assoc]
  have h5 : ∀ x y z : Nat, x + (y + (z + 1 + 1 + 1 + 1 + 1)) = x + y + z + 5 := by
    intro x y z; omega
  rw [h5]
  congr 1 <;> try omega
  all_goals congr 1 <;> try omega
  all_goals congr 1 <;> try omega
  all_goals congr 1 <;> try omega

/-- C5: the claim quantifies over every while statement, "including when the
loop-condition start lies at a byte offset greater than 255".  With 256 bytes
already emitted (`pre`), a one-byte condition and an empty body, the `Loop`
opcode sits at offset 261 and its operand decodes to 264, so the backward
jump lands at `261 + 3 - 264 = 0` — not at the condition start 256:
`while_statement` truncates `loop_start` to `u8` (`len as u8`), so any
condition starting at or past offset 256 gets a wrong operand. -/
theorem C5_loop_truncation_counterexample :
    (whileStatement (List.replicate 256 0) [11] []).1.get? 261 = some OpCode.loop.toByte ∧
    256 * (((whileStatement (List.replicate 256 0) [11] []).1.get? 262).getD 0) +
      ((whileStatement (List.replicate 256 0) [11] []).1.get? 263).getD 0 = 264 ∧
    (261 + 3 : Nat) - 264 = 0 ∧
    (List.replicate 256 (0 : Nat)).length = 256 ∧ (0 : Nat) ≠ 256 := by
  set_option maxRecDepth 4096 in
  refine ⟨by decide, by decide, by decide, by decide, by decide⟩

/-- C5 (amended): the emitted `Loop` operand moves the instruction pointer
back exactly to the first byte of the loop condition **provided** the
condition starts below byte offset 256 (so the `u8` truncation of
`loop_start` is lossless) and the backward distance fits in 16 bits; the
`Loop` opcode sits at `p = pre.length + cond.length + body.length + 4` and
`p + 3 - operand = pre.length`. -/
theorem C5_loop_target (pre cond body : List Nat) (h1 : pre.length < 256)
    (h2 : cond.length + body.length + 7 ≤ 65535) :
    (whileStatement pre cond body).1.get? (pre.length + cond.length + body.length + 4) =
      some OpCode.loop.toByte ∧
    pre.length + cond.length + body.length + 7 -
      (256 * (((whileStatement pre cond body).1.get?
          (pre.length + cond.length + body.length + 5)).getD 0) +
        ((whileStatement pre cond body).1.get?
          (pre.length + cond.length + body.length + 6)).getD 0) = pre.length := by
  have hoff : pre.length + cond.length + body.length + 5 - pre.length % 256 + 2
      = cond.length + body.length + 7 := by
    rw [Nat.mod_eq_of_lt h1]; omega
  rw [whileStatement_closed, hoff]
  have hre : pre ++ cond ++ [7, 255, 255, 1] ++ body ++
      [9, ((cond.length + body.length + 7) >>> 8) % 256, (cond.length + body.length + 7) % 256] =
      (pre ++ cond ++ [7, 255, 255, 1] ++ body) ++
      [9, ((cond.length + body.length + 7) >>> 8) % 256, (cond.length + body.length + 7) % 256] := by
    simp [List.append_assoc]
  rw [hre]
  have hA : (pre ++ cond ++ [7, 255, 255, 1] ++ body).length
      = pre.length + cond.length + body.length + 4 := by
    simp [List.length_append]; omega
  have hget : ∀ k v, k < 3 →
      ([9, ((cond.length + body.length + 7) >>> 8) % 256,
        (cond.length + body.length + 7) % 256].get? k = v) →
      ((((pre ++ cond ++ [7, 255, 255, 1] ++ body) ++
        [9, ((cond.length + body.length + 7) >>> 8) % 256,
          (cond.length + body.length + 7) % 256]).set (pre.length + cond.length + 1)
          (((body.length + 4) >>> 8) % 256)).set (pre.length + cond.length + 2)
          ((body.length + 4) % 256) ++ [1]).get?
        (pre.length + cond.length + body.length + 4 + k) = v := by
    intro k v hk hv
    rw [List.get?_append (by simp [List.length_append]; omega),
      List.get?_set_ne _ _ (by omega), List.get?_set_ne _ _ (by omega),
      List.get?_append_right (by rw [hA]; omega), hA]
    have : pre.length + cond.length + body.length + 4 + k -
        (pre.length + cond.length + body.length + 4) = k := by omega
    rw [this, hv]
  have g0 := hget 0 (some 9) (by omega) rfl
  have g1 := hget 1 (some (((cond.length + body.length + 7) >>> 8) % 256)) (by omega) rfl
  have g2 := hget 2 (some ((cond.length + body.length + 7) % 256)) (by omega) rfl
  constructor
  · simpa using g0
  · have e1 : pre.length + cond.length + body.length + 5
        = pre.length + cond.length + body.length + 4 + 1 := by omega
    have e2 : pre.length + cond.length + body.length + 6
        = pre.length + cond.length + body.length + 4 + 2 := by omega
    rw [e1, e2, g1, g2]
    simp only [Option.getD_some]
    rw [Nat.shiftRight_eq_div_pow]
    have h256 : (2 : Nat) ^ 8 = 256 := by norm_num
    rw [h256]
    omega

/-- C5 witness: `C5_loop_target` on one byte of prefix, a one-byte condition
and an empty body: the `Loop` at offset 6 jumps back to offset 1. -/
theorem C5_loop_target_witness :
    (whileStatement [0] [11] []).1.get? 6 = some OpCode.loop.toByte ∧
    (9 : Nat) - (256 * (((whileStatement [0] [11] []).1.get? 7).getD 0) +
      ((whileStatement [0] [11] []).1.get? 8).getD 0) = 1 := by
  have h := C5_loop_target [0] [11] [] (by decide) (by decide)
  simpa using h

/-- C6: the VM consumes a one-byte constant-index operand for
`DefineGlobal`/`GetGlobal`/`SetGlobal`/`Char` (`read_constant`), but
`disassemble_instruction` routes those opcodes to `simple_instruction` and
advances only 1 byte.  On the block `[Constant 1, DefineGlobal 0, Return]`
the disassembler walk visits offsets `[0, 2, 3, 4]` — treating the operand
byte at offset 3 as an opcode — while the true instruction boundaries are
`[0, 2, 4]`, so the walk does not advance by the encoded widths; the claimed
round-trip property fails on the code.  The last conjunct runs the VM on the
same block to exhibit the true 2-byte width of `DefineGlobal` (ip reaches 5
and `x` is bound). -/
theorem C6_disassembler_width_bug :
    disasmWalk 16 [10, 1, 2, 0, 24] 0 = [0, 2, 3, 4] ∧
    vmWalk 16 [10, 1, 2, 0, 24] 0 = [0, 2, 4] ∧
    disasmNext [10, 1, 2, 0, 24] 2 = some 3 ∧
    vmWidth .defineGlobal = 2 ∧ (3 : Nat) ≠ 2 + 2 ∧
    interpret 8 [10, 1, 2, 0, 24] [.obj ⟨.string, [120]⟩, .number 5] =
      some (⟨[10, 1, 2, 0, 24], [.obj ⟨.string, [120]⟩, .number 5], 5, [],
        [("x", .number 5)], "", []⟩, .ok) := by
  refine ⟨by decide, by decide, by decide, rfl, by decide, by decide⟩

/-- `make_constant` leaves the pool one entry longer regardless of the
"too many constants" check (the push happens first, unconditionally). -/
theorem makeConstant_pool (st : PoolState) (v : Constant) :
    (makeConstant st v).1.pool = st.pool ++ [v] := by
  simp only [makeConstant, pushConstant]
  split <;> rfl

/-- `make_constant` raises the error exactly when the wrapped index is 255,
keeping any earlier error. -/
theorem makeConstant_hadError (st : PoolState) (v : Constant) :
    (makeConstant st v).1.hadError =
      (decide (((st.pool.length + 1) % 256 + 255) % 256 = 255) || st.hadError) := by
  simp only [makeConstant, pushConstant]
  split <;> simp_all

/-- The pool after `n` `make_constant` calls holds all `n` entries. -/
theorem makeConstants_pool_length (n : Nat) : (makeConstants n).pool.length = n := by
  induction n with
  | zero => rfl
  | succ n ih => rw [makeConstants, makeConstant_pool]; simp [ih]

/-- The error flag after `n` `make_constant` calls: first raised at the 256th
constant (wrapped index 255) and sticky afterwards. -/
theorem makeConstants_hadError (n : Nat) :
    (makeConstants n).hadError = decide (256 ≤ n) := by
  induction n with
  | zero => rfl
  | succ n ih =>
    rw [makeConstants, makeConstant_hadError, makeConstants_pool_length, ih, ← Bool.decide_or,
      decide_eq_decide]
    omega

/-- C9: the claim says the pool's length never exceeds 256 entries.  After
257 `make_constant` calls the pool holds 257 entries — `push_constant`
appends unconditionally and `make_constant` only sets the error flag, so the
length bound is violated even though the diagnostic has fired. -/
theorem C9_pool_exceeds_counterexample :
    (makeConstants 257).pool.length = 257 ∧ ¬(257 ≤ 256) :=
  ⟨makeConstants_pool_length 257, by omega⟩

/-- C9 (amended): a unit reaching a 256th constant does raise the "too many
constants" diagnostic (so `compile()` returns `false`, never a silent
success), but the pool itself keeps growing past 256 — its length always
equals the number of constants pushed — and indexes of later constants
silently wrap modulo 256. -/
theorem C9_pool_growth (n : Nat) :
    (makeConstants n).pool.length = n ∧ ((makeConstants n).hadError = true ↔ 256 ≤ n) := by
  refine ⟨makeConstants_pool_length n, ?_⟩
  rw [makeConstants_hadError]
  simp

/-- Cross-variant `partial_cmp` compares discriminants. -/
theorem ordCmp_cross (a b : Constant) (h : discr a ≠ discr b) :
    ordCmp a b = some (cmpN (discr a) (discr b)) := by
  cases a <;> cases b <;> first | rfl | exact absurd rfl h

/-- C10: the claim says `Greater` and `Less` push `Bool(false)` for every
cross-variant pair.  `Less` on `Number(1)` (left) and `Bool(false)` (right)
pushes `Bool(true)` — the derived `PartialOrd` orders mismatched variants by
declaration order, and `Number` precedes `Bool` — both as the raw `<` and in
a full VM run of `[Constant 0, Constant 1, Less, Return]`. -/
theorem C10_cross_less_counterexample :
    constLt (.number 1) (.bool false) = true ∧
    interpret 6 [10, 0, 10, 1, 17, 24] [.number 1, .bool false] =
      some (⟨[10, 0, 10, 1, 17, 24], [.number 1, .bool false], 6, [.bool true],
        [], "", []⟩, .ok) := by
  refine ⟨by decide, by decide⟩

/-- C10 (amended): the comparison opcodes are total — `Equal`, `Greater` and
`Less` always pop two operands and push a `Bool`, never faulting — and on
operands of different variants `Equal` pushes `false` while `Greater`/`Less`
order the variants by declaration order (`Number < Bool < Char < Obj <
Null`), not uniformly `false`; consequently `>=`/`<=` (compiled as
`Less`/`Greater` then `Not`) follow that order on mismatched kinds instead of
being uniformly `true`. -/
theorem C10_comparison_semantics :
    (∀ a b : Constant, discr a ≠ discr b →
      constEqb a b = false ∧ constLt a b = decide (discr a < discr b) ∧
        constGt a b = decide (discr b < discr a)) ∧
    (∀ (fuel : Nat) (st : VMState) (res : InterpretResult) (s : List Constant)
      (l r : Constant), st.bytes.get? st.ip = some OpCode.equal.toByte →
      st.stack = s ++ [l, r] →
      runLoop (fuel + 1) st res =
        runLoop fuel { st with ip := st.ip + 1, stack := s ++ [.bool (constEqb l r)] } res) ∧
    (∀ (fuel : Nat) (st : VMState) (res : InterpretResult) (s : List Constant)
      (l r : Constant), st.bytes.get? st.ip = some OpCode.greater.toByte →
      st.stack = s ++ [l, r] →
      runLoop (fuel + 1) st res =
        runLoop fuel { st with ip := st.ip + 1, stack := s ++ [.bool (constGt l r)] } res) ∧
    (∀ (fuel : Nat) (st : VMState) (res : InterpretResult) (s : List Constant)
      (l r : Constant), st.bytes.get? st.ip = some OpCode.less.toByte →
      st.stack = s ++ [l, r] →
      runLoop (fuel + 1) st res =
        runLoop fuel { st with ip := st.ip + 1, stack := s ++ [.bool (constLt l r)] } res) := by
  refine ⟨?_, ?_, ?_, ?_⟩
  · intro a b h
    refine ⟨?_, ?_, ?_⟩
    · cases a <;> cases b <;> first | exact absurd rfl h | simp [constEqb]
    · rw [constLt, ordCmp_cross a b h]
      rcases cmpN_cases (discr a) (discr b) with ⟨hc, hd⟩ | ⟨hc, hd⟩ | ⟨hc, hd⟩ <;>
        simp [hc, hd] <;> omega
    · rw [constGt, ordCmp_cross a b h]
      rcases cmpN_cases (discr a) (discr b) with ⟨hc, hd⟩ | ⟨hc, hd⟩ | ⟨hc, hd⟩ <;>
        simp [hc, hd] <;> omega
  · intro fuel st res s l r h hs
    rw [runLoop_step fuel st res _ h]
    simp only [execInstr, OpCode.ofByte, OpCode.toByte, hs, pop2_getLast, pop2_dropLast,
      List.getLast?_concat, List.dropLast_concat]
  · intro fuel st res s l r h hs
    rw [runLoop_step fuel st res _ h]
    simp only [execInstr, OpCode.ofByte, OpCode.toByte, hs, pop2_getLast, pop2_dropLast,
      List.getLast?_concat, List.dropLast_concat]
  · intro fuel st res s l r h hs
    rw [runLoop_step fuel st res _ h]
    simp only [execInstr, OpCode.ofByte, OpCode.toByte, hs, pop2_getLast, pop2_dropLast,
      List.getLast?_concat, List.dropLast_concat]

/-- C7: the claim asserts that Char⊕Char and Char⊕Number give a Char by
byte-wise arithmetic for **each** of Add/Sub/Mul/Div.  For `Div` with a zero
right-operand byte the source computes `x as u8 / y as u8`, an integer
division by zero, which panics in every build profile: the program `'a' / 0;`
(Char 97 over Number 0) aborts the interpreter — `binary_op!` produces
neither a Char nor a runtime error, and the whole run is a panic (`none` in
the model), refuting the universally quantified Char clause. -/
theorem C7_div_zero_counterexample :
    binaryOp .div (.char 97) (.number 0) = .panic ∧
    byteOp .div 97 0 = none ∧
    interpret 8 [10, 0, 10, 1, 23, 24] [.char 97, .number 0] = none := by
  refine ⟨by decide, by decide, by decide⟩

/-- C7 (amended): the operand-kind dispatch of the arithmetic opcodes,
clause by clause: Number⊕Number → Number through the operator; Char⊕Char and
Char⊕Number → Char by byte-wise arithmetic re-cast to a character, **except**
that `Div` with a zero right-operand byte is a Rust panic (`byteOp … = none`
exactly there) aborting the interpreter; a String left operand concatenates
with a String, with a Number's decimal text, or with a single Char; every
other pairing is a runtime type-mismatch error naming both type tags and the
operator character; the VM pops right then left, pushing the result,
aborting with the recorded message and a cleared stack, or propagating the
panic; concretely, `"a" + 1` leaves the string `a1` while `1 + "a"` aborts
with the mismatch message. -/
theorem C7_binary_op_rules :
    (∀ (t : BinTag) (x y : ℚ),
      binaryOp t (.number x) (.number y) = .ok (.number (numOp t x y))) ∧
    (∀ (t : BinTag) (a b : Nat), byteOp t a b = none ↔ t = .div ∧ b = 0) ∧
    (∀ (t : BinTag) (x y b : Nat), byteOp t (x % 256) (y % 256) = some b →
      binaryOp t (.char x) (.char y) = .ok (.char b)) ∧
    (∀ (t : BinTag) (x y : Nat), byteOp t (x % 256) (y % 256) = none →
      binaryOp t (.char x) (.char y) = .panic) ∧
    (∀ (t : BinTag) (x : Nat) (y : ℚ) (b : Nat), byteOp t (x % 256) (f64ToU8 y) = some b →
      binaryOp t (.char x) (.number y) = .ok (.char b)) ∧
    (∀ (t : BinTag) (x : Nat) (y : ℚ), byteOp t (x % 256) (f64ToU8 y) = none →
      binaryOp t (.char x) (.number y) = .panic) ∧
    (∀ (t : BinTag) (a b : List Nat),
      binaryOp t (.obj ⟨.string, a⟩) (.obj ⟨.string, b⟩) = .ok (.obj ⟨.string, a ++ b⟩)) ∧
    (∀ (t : BinTag) (a : List Nat) (y : ℚ),
      binaryOp t (.obj ⟨.string, a⟩) (.number y) =
        .ok (.obj ⟨.string, a ++ strBytes (numToString y)⟩)) ∧
    (∀ (t : BinTag) (a : List Nat) (c : Nat),
      binaryOp t (.obj ⟨.string, a⟩) (.char c) = .ok (.obj ⟨.string, a ++ [c % 256]⟩)) ∧
    (∀ (t : BinTag) (l r : Constant), mismatched l r = true →
      binaryOp t l r = .mismatch (typeMismatchMsg (opChar t) (typeToString l) (typeToString r))) ∧
    (∀ (fuel : Nat) (st : VMState) (res : InterpretResult) (s : List Constant)
      (l r v : Constant) (t : BinTag), st.bytes.get? st.ip = some (binByte t) →
      st.stack = s ++ [l, r] → binaryOp t l r = .ok v →
      runLoop (fuel + 1) st res =
        runLoop fuel { st with ip := st.ip + 1, stack := s ++ [v] } res) ∧
    (∀ (fuel : Nat) (st : VMState) (res : InterpretResult) (s : List Constant)
      (l r : Constant) (t : BinTag) (msg : String), st.bytes.get? st.ip = some (binByte t) →
      st.stack = s ++ [l, r] → binaryOp t l r = .mismatch msg →
      runLoop (fuel + 1) st res =
        some ({ st with ip := st.ip + 1, stack := [], lastError := msg }, .runtimeError)) ∧
    (∀ (fuel : Nat) (st : VMState) (res : InterpretResult) (s : List Constant)
      (l r : Constant) (t : BinTag), st.bytes.get? st.ip = some (binByte t) →
      st.stack = s ++ [l, r] → binaryOp t l r = .panic →
      runLoop (fuel + 1) st res = none) ∧
    interpret 8 [10, 0, 10, 1, 20, 24] [.obj ⟨.string, [97]⟩, .number 1] =
      some (⟨[10, 0, 10, 1, 20, 24], [.obj ⟨.string, [97]⟩, .number 1], 6,
        [.obj ⟨.string, [97, 49]⟩], [], "", []⟩, .ok) ∧
    interpret 8 [10, 1, 10, 0, 20, 24] [.obj ⟨.string, [97]⟩, .number 1] =
      some (⟨[10, 1, 10, 0, 20, 24], [.obj ⟨.string, [97]⟩, .number 1], 5, [],
        [], typeMismatchMsg '+' "number" "String", []⟩, .runtimeError) := by
  refine ⟨fun t x y => rfl, ?_, ?_, ?_, ?_, ?_, ?_, fun t a y => rfl,
    fun t a c => rfl, ?_, ?_, ?_, ?_, by decide, by decide⟩
  · intro t a b
    cases t <;> simp [byteOp]
  · intro t x y b hb
    simp [binaryOp, hb]
  · intro t x y hb
    simp [binaryOp, hb]
  · intro t x y b hb
    simp [binaryOp, hb]
  · intro t x y hb
    simp [binaryOp, hb]
  · intro t a b
    simp [binaryOp, typeToString]
  · intro t l r h
    rcases l with x | b | c | ⟨t3, a⟩ | _ <;> rcases r with y | b2 | c2 | ⟨t4, a2⟩ | _
    all_goals try cases t3
    all_goals try cases t4
    all_goals simp_all [mismatched, binaryOp]
  · intro fuel st res s l r v t h hs hok
    rw [runLoop_step fuel st res _ h]
    cases t <;>
      simp only [execInstr, execInstr.execBinary, binByte, OpCode.ofByte, OpCode.toByte, hs,
        pop2_getLast, pop2_dropLast, List.getLast?_concat, List.dropLast_concat, hok]
  · intro fuel st res s l r t msg h hs herr
    rw [runLoop_step fuel st res _ h]
    cases t <;>
      simp only [execInstr, execInstr.execBinary, binByte, OpCode.ofByte, OpCode.toByte, hs,
        pop2_getLast, pop2_dropLast, List.getLast?_concat, List.dropLast_concat, herr, vmError]
  · intro fuel st res s l r t h hs hpanic
    rw [runLoop_step fuel st res _ h]
    cases t <;>
      simp only [execInstr, execInstr.execBinary, binByte, OpCode.ofByte, OpCode.toByte, hs,
        pop2_getLast, pop2_dropLast, List.getLast?_concat, List.dropLast_concat, hpanic]

/-- C7 witness: `C7_binary_op_rules`' mismatch clause at `1 + "a"` and its
Char⊕Number panic clause at `'a' / 0`. -/
theorem C7_binary_op_rules_witness :
    binaryOp .add (.number 1) (.obj ⟨.string, [97]⟩) =
      .mismatch (typeMismatchMsg '+' "number" "String") ∧
    binaryOp .div (.char 97) (.number 0) = .panic := by
  constructor
  · have h := C7_binary_op_rules.2.2.2.2.2.2.2.2.2.1 .add (.number 1)
      (.obj ⟨.string, [97]⟩) (by decide)
    simpa [typeToString, opChar] using h
  · exact C7_binary_op_rules.2.2.2.2.2.1 .div 97 0 (by decide)

/-- C8: the falsiness table — Number x ↦ x == 0, Bool b ↦ !b, Char ↦ false
(always truthy), String object ↦ emptiness of its byte buffer, Null ↦ true —
and its two consumers: `Not` pops one value and pushes the resulting Bool,
`Jz` reads its 16-bit big-endian offset, inspects the stack top **without
popping**, and advances the instruction pointer by the offset exactly when
the test yields true. -/
theorem C8_truthiness :
    (∀ x : ℚ, isFalsey (.number x) = .bool (decide (x = 0))) ∧
    (∀ b : Bool, isFalsey (.bool b) = .bool (!b)) ∧
    (∀ c : Nat, isFalsey (.char c) = .bool false) ∧
    (∀ o : Object, isFalsey (.obj o) = .bool o.bytes.isEmpty) ∧
    isFalsey .null = .bool true ∧
    (∀ (fuel : Nat) (st : VMState) (res : InterpretResult) (s : List Constant) (v : Constant),
      st.bytes.get? st.ip = some OpCode.notOp.toByte → st.stack = s ++ [v] →
      runLoop (fuel + 1) st res =
        runLoop fuel { st with ip := st.ip + 1, stack := s ++ [isFalsey v] } res) ∧
    (∀ (fuel : Nat) (st : VMState) (res : InterpretResult) (v : Constant) (b : Bool)
      (hi lo : Nat), st.bytes.get? st.ip = some OpCode.jz.toByte →
      st.bytes.get? (st.ip + 1) = some hi → st.bytes.get? (st.ip + 1 + 1) = some lo →
      st.stack.getLast? = some v → isFalsey v = .bool b →
      runLoop (fuel + 1) st res =
        runLoop fuel { st with ip := st.ip + 1 + 2 + (if b then hi * 256 + lo else 0) } res) := by
  refine ⟨fun x => rfl, fun b => rfl, fun c => rfl, fun o => rfl, rfl, ?_, ?_⟩
  · intro fuel st res s v h hs
    rw [runLoop_step fuel st res _ h]
    simp only [execInstr, OpCode.ofByte, OpCode.toByte, hs,
      List.getLast?_concat, List.dropLast_concat]
  · intro fuel st res v b hi lo h h1 h2 hv hb
    rw [runLoop_step fuel st res _ h]
    cases b <;>
      simp only [execInstr, OpCode.ofByte, OpCode.toByte, h1, h2, hv, hb,
        if_true, if_false, Nat.add_zero, Bool.false_eq_true]

/-- C8 witness: `C8_truthiness`' `Jz` clause on a falsey top (`Null`), which
jumps the instruction pointer by the decoded offset 2 without popping. -/
theorem C8_truthiness_witness :
    runLoop 1 ⟨[7, 0, 2], [], 0, [.null], [], "", []⟩ .ok =
      runLoop 0 ⟨[7, 0, 2], [], 5, [.null], [], "", []⟩ .ok := by
  have h := C8_truthiness.2.2.2.2.2.2 0 ⟨[7, 0, 2], [], 0, [.null], [], "", []⟩ .ok
    .null true 0 2 rfl rfl rfl rfl rfl
  simpa using h

/-- C10 witness: `C10_comparison_semantics` at `Char 97` vs `Null`
(discriminants 2 and 4) and at a concrete `Equal` step. -/
theorem C10_comparison_semantics_witness :
    (constEqb (.char 97) .null = false ∧ constLt (.char 97) .null = decide ((2 : Nat) < 4) ∧
      constGt (.char 97) .null = decide ((4 : Nat) < 2)) ∧
    runLoop 1 ⟨[15], [], 0, [.null, .null], [], "", []⟩ .ok =
      runLoop 0 ⟨[15], [], 1, [.bool (constEqb .null .null)], [], "", []⟩ .ok := by
  constructor
  · have h := C10_comparison_semantics.1 (.char 97) .null (by decide)
    simpa [discr] using h
  · have h := C10_comparison_semantics.2.1 0 ⟨[15], [], 0, [.null, .null], [], "", []⟩
      .ok [] .null .null rfl rfl
    simpa using h

end Dynamix
